import Mathlib

/-!
Shallow embedding of the core of the credit-ratings service
(`app/services/rate_limiter.py`, `app/services/cache.py`,
`app/services/ratings_service.py`, `app/scrapers/fitch.py`,
`app/scrapers/base.py`, `app/utils/rating_normalizer.py`,
`app/models/enums.py`, `app/models/schemas.py`) and proofs about it.

Conventions of the embedding:
* timestamps are natural numbers (seconds); `datetime.utcnow()` readings
  become explicit `now` arguments at every call that reads the clock;
* Python `datetime` subtraction compared against a positive
  `timedelta(seconds = k)` becomes truncated `Nat` subtraction compared
  against `k`, which agrees whenever the clock is monotone;
* each rate-limiter / circuit-breaker state is per origin (the Python
  classes key every field by `domain`); we embed the state of one origin,
  which is faithful because distinct domains never share state;
* fallible operations return `Except String` / `Option`;
* external-collaborator outcomes (network responses, HTML extraction,
  entity resolution) enter as explicit parameters, mirroring the values
  the awaited calls give back to the embedded code.
-/

namespace CreditRatings

/-! ### `app/models/enums.py` -/

/-- `RatingAgency` (`app/models/enums.py`): the three configured sources,
in declaration order FITCH, SP, MOODYS. -/
inductive RatingAgency where
  | fitch
  | sp
  | moodys
deriving DecidableEq, Repr

/-- The `.value` string of each enum member. -/
def RatingAgency.value : RatingAgency → String
  | .fitch => "fitch"
  | .sp => "sp"
  | .moodys => "moodys"

/-- Iteration order of `for agency in RatingAgency` (declaration order). -/
def agencyOrder : List RatingAgency := [.fitch, .sp, .moodys]

/-- `RatingScale` (`app/models/enums.py`). -/
inductive RatingScale where
  | fitchSp
  | moodys
deriving DecidableEq, Repr

/-- `RatingBucket` (`app/models/enums.py`). -/
inductive RatingBucket where
  | investmentGrade
  | speculative
  | default
  | notRated
deriving DecidableEq, Repr

/-- `Outlook` (`app/models/enums.py`). -/
inductive Outlook where
  | positive
  | stable
  | negative
  | developing
  | notAvailable
deriving DecidableEq, Repr

/-! ### Circuit breaker (`app/services/rate_limiter.py`, class `CircuitBreaker`) -/

/-- `CircuitState` (`rate_limiter.py`).  `opened` stands for the Python
member `OPEN` (`open` is a Lean keyword). -/
inductive CircuitState where
  | closed
  | opened
  | halfOpen
deriving DecidableEq, Repr

/-- State of one `CircuitBreaker` instance (`rate_limiter.py`, `__init__`). -/
structure CircuitBreaker where
  domain : String
  threshold : Nat
  timeoutSeconds : Nat
  state : CircuitState
  failureCount : Nat
  lastFailureTime : Option Nat
  successCount : Nat
deriving DecidableEq, Repr

/-- `CircuitBreaker.__init__`. -/
def CircuitBreaker.init (domain : String) (threshold timeoutSeconds : Nat) :
    CircuitBreaker :=
  { domain := domain
    threshold := threshold
    timeoutSeconds := timeoutSeconds
    state := .closed
    failureCount := 0
    lastFailureTime := none
    successCount := 0 }

/-- `CircuitBreaker._open_circuit`. -/
def CircuitBreaker.openCircuit (cb : CircuitBreaker) : CircuitBreaker :=
  { cb with state := .opened }

/-- `CircuitBreaker._half_open_circuit`. -/
def CircuitBreaker.halfOpenCircuit (cb : CircuitBreaker) : CircuitBreaker :=
  { cb with state := .halfOpen, successCount := 0 }

/-- `CircuitBreaker._close_circuit`. -/
def CircuitBreaker.closeCircuit (cb : CircuitBreaker) : CircuitBreaker :=
  { cb with state := .closed, failureCount := 0, successCount := 0 }

/-- `CircuitBreaker.record_success`. -/
def CircuitBreaker.recordSuccess (cb : CircuitBreaker) : CircuitBreaker :=
  match cb.state with
  | .halfOpen =>
      let cb' := { cb with successCount := cb.successCount + 1 }
      if 2 ≤ cb'.successCount then cb'.closeCircuit else cb'
  | .closed => { cb with failureCount := 0 }
  | .opened => cb

/-- `CircuitBreaker.record_failure`; `now` is the `datetime.utcnow()`
reading taken inside the call. -/
def CircuitBreaker.recordFailure (cb : CircuitBreaker) (now : Nat) :
    CircuitBreaker :=
  let cb' := { cb with
                failureCount := cb.failureCount + 1
                lastFailureTime := some now }
  if cb'.threshold ≤ cb'.failureCount then cb'.openCircuit else cb'

/-- The denial reason produced by `can_request` in the `OPEN` state. -/
def circuitOpenReason (domain : String) : String :=
  "Circuit open for " ++ domain ++ " (too many failures)"

/-- `CircuitBreaker.can_request`.  Returns the (possibly transitioned)
breaker together with the `(allowed, reason)` pair. -/
def CircuitBreaker.canRequest (cb : CircuitBreaker) (now : Nat) :
    CircuitBreaker × Bool × Option String :=
  match cb.state with
  | .closed => (cb, true, none)
  | .opened =>
      match cb.lastFailureTime with
      | some t =>
          if cb.timeoutSeconds < now - t then (cb.halfOpenCircuit, true, none)
          else (cb, false, some (circuitOpenReason cb.domain))
      | none => (cb, false, some (circuitOpenReason cb.domain))
  | .halfOpen => (cb, true, none)

/-! ### Rate limiter (`app/services/rate_limiter.py`, class `RateLimiter`)

The Python class keys `tokens`, `last_refill` and the breaker by domain;
we embed the state attached to a single domain.  `tokens[domain]` is
created at `requests_per_domain` and `last_refill[domain]` at the clock
reading of the first access (`defaultdict(datetime.utcnow)`), which we
expose as the creation time `t0`. -/

structure RateLimiter where
  requestsPerWindow : Nat
  windowSeconds : Nat
  tokens : Nat
  lastRefill : Nat
  circuit : CircuitBreaker
deriving DecidableEq, Repr

/-- Fresh per-domain state: full bucket, `last_refill` = creation time
`t0`, fresh breaker (`RateLimiter.__init__` + `_get_circuit`). -/
def RateLimiter.init (domain : String)
    (requestsPerWindow windowSeconds threshold cooldown t0 : Nat) :
    RateLimiter :=
  { requestsPerWindow := requestsPerWindow
    windowSeconds := windowSeconds
    tokens := requestsPerWindow
    lastRefill := t0
    circuit := .init domain threshold cooldown }

/-- The denial reason produced on token exhaustion.  The Python code
formats the remaining wait `window_seconds - elapsed` with one decimal;
we render the truncated natural difference. -/
def rateLimitReason (domain : String) (wait : Nat) : String :=
  "Rate limit exceeded for " ++ domain ++ ", retry in " ++ toString wait ++ "s"

/-- `RateLimiter.acquire`: breaker check first, then refill-if-window-
elapsed, then token check; returns the new state and `(allowed, reason)`. -/
def RateLimiter.acquire (rl : RateLimiter) (now : Nat) :
    RateLimiter × Bool × Option String :=
  let res := rl.circuit.canRequest now
  let rl' := { rl with circuit := res.1 }
  if res.2.1 then
    let elapsed := now - rl'.lastRefill
    let rl'' :=
      if rl'.windowSeconds ≤ elapsed then
        { rl' with tokens := rl'.requestsPerWindow, lastRefill := now }
      else rl'
    if rl''.tokens = 0 then
      (rl'', false, some (rateLimitReason rl''.circuit.domain
        (rl''.windowSeconds - elapsed)))
    else
      ({ rl'' with tokens := rl''.tokens - 1 }, true, none)
  else
    (rl', false, res.2.2)

/-- `RateLimiter.record_success`. -/
def RateLimiter.recordSuccess (rl : RateLimiter) : RateLimiter :=
  { rl with circuit := rl.circuit.recordSuccess }

/-- `RateLimiter.record_failure`. -/
def RateLimiter.recordFailure (rl : RateLimiter) (now : Nat) : RateLimiter :=
  { rl with circuit := rl.circuit.recordFailure now }

/-! ### Event traces over one origin's state -/

/-- One call into the rate limiter for this origin. -/
inductive RLEvent where
  | acq (now : Nat)
  | success
  | failure (now : Nat)
deriving DecidableEq, Repr

/-- Apply one event (discarding `acquire`'s return value). -/
def RateLimiter.step (rl : RateLimiter) : RLEvent → RateLimiter
  | .acq now => (rl.acquire now).1
  | .success => rl.recordSuccess
  | .failure now => rl.recordFailure now

/-- Apply a sequence of events. -/
def RateLimiter.runEvents (rl : RateLimiter) (evs : List RLEvent) :
    RateLimiter :=
  evs.foldl RateLimiter.step rl

/-- States of one origin reachable from creation. -/
def RLReachable (domain : String)
    (requestsPerWindow windowSeconds threshold cooldown : Nat)
    (rl : RateLimiter) : Prop :=
  ∃ t0 evs,
    (RateLimiter.init domain requestsPerWindow windowSeconds threshold
      cooldown t0).runEvents evs = rl

/-- A sequence of `acquire` calls, collecting each `(allowed, reason)`. -/
def runAcquires (rl : RateLimiter) : List Nat →
    RateLimiter × List (Bool × Option String)
  | [] => (rl, [])
  | t :: ts =>
      let r := rl.acquire t
      let rest := runAcquires r.1 ts
      (rest.1, r.2 :: rest.2)

/-- Fold a list of `record_failure` calls. -/
def applyFailures (rl : RateLimiter) (ts : List Nat) : RateLimiter :=
  ts.foldl RateLimiter.recordFailure rl

/-! ### Data model (`app/models/schemas.py`)

`confidence` is a Pydantic `float` in `[0, 1]`; the embedding uses exact
rationals, which agree with the binary floats on the comparisons the code
performs.  Timestamps (`datetime`) are natural numbers. -/

/-- `ResolvedEntity` (`schemas.py`). -/
structure ResolvedEntity where
  name : String
  country : Option String
  canonicalUrl : Option String
  confidence : ℚ
  ambiguousCandidates : List (List (String × String))
deriving DecidableEq, Repr

/-- `NormalizedRating` (`schemas.py`). -/
structure NormalizedRating where
  scale : RatingScale
  score : Nat
  bucket : RatingBucket
deriving DecidableEq, Repr

/-- `AgencyRating` (`schemas.py`), with the Pydantic field defaults. -/
structure AgencyRating where
  raw : Option String := none
  outlook : Option Outlook := none
  normalized : Option NormalizedRating := none
  lastUpdated : Option Nat := none
  sourceUrl : Option String := none
  blocked : Bool := false
  error : Option String := none
deriving DecidableEq, Repr

/-- `AgencyRating(error=...)`: only the error field set. -/
def AgencyRating.ofError (e : String) : AgencyRating := { error := some e }

/-- `RatingsResponse` (`schemas.py`).  The `ratings` dict is embedded as a
map from the (finite) key type; a key the code has not assigned maps to
`none`. -/
structure RatingsResponse where
  query : String
  resolved : Option ResolvedEntity := none
  ratings : RatingAgency → Option AgencyRating := fun _ => none
  notes : List String := []
  timestamp : Nat := 0
  cached : Bool := false

/-! ### SHA-256 (`hashlib.sha256(...).hexdigest()` used by `cache.py`)

A executable embedding of SHA-256 over `Nat`, with 32-bit words kept
reduced modulo `2^32`.  Verified against reference digests. -/

/-- Reduce to a 32-bit word. -/
def w32 (n : Nat) : Nat := n % 4294967296

/-- Right-rotation of a 32-bit word. -/
def rotr (k x : Nat) : Nat := w32 ((x >>> k) ||| (x <<< (32 - k)))

/-- SHA-256 `Ch`; `¬x` is `x XOR 0xFFFFFFFF`. -/
def shaCh (x y z : Nat) : Nat := (x &&& y) ^^^ ((x ^^^ 4294967295) &&& z)

/-- SHA-256 `Maj`. -/
def shaMaj (x y z : Nat) : Nat := (x &&& y) ^^^ (x &&& z) ^^^ (y &&& z)

/-- SHA-256 `Σ0`. -/
def bigSigma0 (x : Nat) : Nat := rotr 2 x ^^^ rotr 13 x ^^^ rotr 22 x

/-- SHA-256 `Σ1`. -/
def bigSigma1 (x : Nat) : Nat := rotr 6 x ^^^ rotr 11 x ^^^ rotr 25 x

/-- SHA-256 `σ0`. -/
def smallSigma0 (x : Nat) : Nat := rotr 7 x ^^^ rotr 18 x ^^^ (x >>> 3)

/-- SHA-256 `σ1`. -/
def smallSigma1 (x : Nat) : Nat := rotr 17 x ^^^ rotr 19 x ^^^ (x >>> 10)

/-- SHA-256 round constants. -/
def shaK : List Nat :=
  [1116352408, 1899447441, 3049323471, 3921009573, 961987163, 1508970993,
   2453635748, 2870763221, 3624381080, 310598401, 607225278, 1426881987,
   1925078388, 2162078206, 2614888103, 3248222580, 3835390401, 4022224774,
   264347078, 604807628, 770255983, 1249150122, 1555081692, 1996064986,
   2554220882, 2821834349, 2952996808, 3210313671, 3336571891, 3584528711,
   113926993, 338241895, 666307205, 773529912, 1294757372, 1396182291,
   1695183700, 1986661051, 2177026350, 2456956037, 2730485921, 2820302411,
   3259730800, 3345764771, 3516065817, 3600352804, 4094571909, 275423344,
   430227734, 506948616, 659060556, 883997877, 958139571, 1322822218,
   1537002063, 1747873779, 1955562222, 2024104815, 2227730452, 2361852424,
   2428436474, 2756734187, 3204031479, 3329325298]

/-- SHA-256 initial hash state. -/
def shaH0 : List Nat :=
  [1779033703, 3144134277, 1013904242, 2773480762,
   1359893119, 2600822924, 528734635, 1541459225]

/-- Big-endian 64-bit byte decomposition. -/
def be64 (n : Nat) : List Nat :=
  (List.range 8).map fun i => (n >>> (8 * (7 - i))) % 256

/-- SHA-256 padding: `0x80`, zeros to 56 mod 64, 64-bit bit length. -/
def padMessage (msg : List Nat) : List Nat :=
  let z := (119 - msg.length % 64) % 64
  msg ++ [128] ++ List.replicate z 0 ++ be64 (8 * msg.length)

/-- Big-endian 32-bit words from bytes. -/
def toWords : List Nat → List Nat
  | b0 :: b1 :: b2 :: b3 :: rest =>
      (((b0 * 256 + b1) * 256 + b2) * 256 + b3) :: toWords rest
  | _ => []

/-- Extend the 16-word block to the 64-word message schedule. -/
def extendSchedule (w : Array Nat) : Array Nat :=
  (List.range 48).foldl
    (fun w _ =>
      let n := w.size
      w.push (w32 (smallSigma1 (w.getD (n - 2) 0) + w.getD (n - 7) 0 +
        smallSigma0 (w.getD (n - 15) 0) + w.getD (n - 16) 0)))
    w

/-- One SHA-256 compression round on the 8-word working state. -/
def compressStep (st : List Nat) (kw : Nat × Nat) : List Nat :=
  match st with
  | [a, b, c, d, e, f, g, h] =>
      let t1 := w32 (h + bigSigma1 e + shaCh e f g + kw.1 + kw.2)
      let t2 := w32 (bigSigma0 a + shaMaj a b c)
      [w32 (t1 + t2), a, b, c, w32 (d + t1), e, f, g]
  | st => st

/-- Compress one 64-byte block into the hash state. -/
def compressBlock (H : List Nat) (block : List Nat) : List Nat :=
  let w := extendSchedule (toWords block).toArray
  let st := (shaK.zip w.toList).foldl compressStep H
  List.zipWith (fun x y => w32 (x + y)) H st

/-- Split into 64-byte blocks (fuel-indexed structural recursion; a fuel
of `bytes.length` always suffices). -/
def chunks64 : Nat → List Nat → List (List Nat)
  | _, [] => []
  | 0, _ => []
  | fuel + 1, bytes => bytes.take 64 :: chunks64 fuel (bytes.drop 64)

/-- Fold all blocks of the padded message. -/
def processBlocks (H : List Nat) (bytes : List Nat) : List Nat :=
  (chunks64 bytes.length bytes).foldl compressBlock H

/-- Lower-case hexadecimal digit. -/
def hexDigit (n : Nat) : Char :=
  "0123456789abcdef".data.getD n '0'

/-- Eight hex characters of a 32-bit word. -/
def wordHex (n : Nat) : List Char :=
  (List.range 8).map fun i => hexDigit ((n >>> (4 * (7 - i))) % 16)

/-- `hashlib.sha256(bytes).hexdigest()`. -/
def sha256hex (bytes : List Nat) : String :=
  ⟨(processBlocks shaH0 (padMessage bytes)).flatMap wordHex⟩

/-- UTF-8 encoding of one character (`str.encode()`). -/
def utf8Char (c : Char) : List Nat :=
  let n := c.toNat
  if n < 128 then [n]
  else if n < 2048 then [192 ||| (n >>> 6), 128 ||| (n &&& 63)]
  else if n < 65536 then
    [224 ||| (n >>> 12), 128 ||| ((n >>> 6) &&& 63), 128 ||| (n &&& 63)]
  else
    [240 ||| (n >>> 18), 128 ||| ((n >>> 12) &&& 63),
     128 ||| ((n >>> 6) &&& 63), 128 ||| (n &&& 63)]

/-- `str.encode()`: UTF-8 bytes of a string. -/
def strBytes (s : String) : List Nat := s.data.flatMap utf8Char

/-! ### Cache (`app/services/cache.py`, class `CacheService`)

`str.lower()` / `str.strip()` are embedded at the character-list level
(Lean's `String.trim`/`toLower` agree on these inputs but do not reduce
in the kernel).  ASCII is handled exactly; the embedding applies the same
ASCII rules to all characters. -/

/-- `str.lower()` on one character (ASCII rule). -/
def pyLowerChar (c : Char) : Char :=
  if 'A' ≤ c ∧ c ≤ 'Z' then Char.ofNat (c.toNat + 32) else c

/-- `str.lower()`. -/
def pyLower (s : String) : String := ⟨s.data.map pyLowerChar⟩

/-- Python `str.strip()` whitespace set (space, `\t`, `\n`, `\r`, `\v`,
`\f`). -/
def isPyWhitespace (c : Char) : Bool :=
  c = ' ' || c = '\t' || c = '\n' || c = '\r' || c.toNat = 11 || c.toNat = 12

/-- `str.strip()`. -/
def pyStrip (s : String) : String :=
  ⟨((s.data.dropWhile isPyWhitespace).reverse.dropWhile isPyWhitespace).reverse⟩

/-- `country or ""`: both `None` and the empty string are falsy. -/
def countryOrEmpty : Option String → String
  | none => ""
  | some c => if c.isEmpty then "" else c

/-- `CacheService._generate_cache_key`:
`sha256(f"{company_name.lower().strip()}:{country or ''}".encode()).hexdigest()`. -/
def generateCacheKey (companyName : String) (country : Option String) :
    String :=
  sha256hex (strBytes (pyStrip (pyLower companyName) ++ ":" ++
    countryOrEmpty country))

/-- One row of the `ratings_cache` table; `responseData` is the
JSON-serialized payload, modeled structurally (Pydantic round-trips it). -/
structure CacheRow where
  companyName : String
  country : Option String
  responseData : RatingsResponse
  createdAt : Nat
  expiresAt : Nat

/-- The `ratings_cache` table, keyed by `cache_key`. -/
def CacheStore : Type := String → Option CacheRow

/-- The empty table. -/
def CacheStore.empty : CacheStore := fun _ => none

/-- `CacheService._delete_key`. -/
def CacheStore.deleteKey (store : CacheStore) (key : String) : CacheStore :=
  fun k => if k = key then none else store k

/-- `CacheService.set`.  `now` is the clock reading, `ttlDays` the
configured TTL (`timedelta(days=ttl)` = `ttlDays * 86400` seconds) and
`writeFails` models an exception from the storage layer (caught and
logged).  Returns the new table and the caller's `response` object, which
the method mutates (`response.cached = False`) before attempting the
write. -/
def cacheSet (store : CacheStore) (ttlDays : Nat) (companyName : String)
    (country : Option String) (response : RatingsResponse) (now : Nat)
    (writeFails : Bool) : CacheStore × RatingsResponse :=
  let key := generateCacheKey companyName country
  let response' := { response with cached := false }
  let store' : CacheStore :=
    if writeFails then store
    else fun k =>
      if k = key then
        some { companyName := companyName
               country := country
               responseData := response'
               createdAt := now
               expiresAt := now + ttlDays * 86400 }
      else store k
  (store', response')

/-- `CacheService.get`.  `readFails` models an exception from the storage
layer (caught; degrades to a miss).  Expired rows are deleted and treated
as a miss; a hit is returned with `cached = True`. -/
def cacheGet (store : CacheStore) (companyName : String)
    (country : Option String) (now : Nat) (readFails : Bool) :
    CacheStore × Option RatingsResponse :=
  let key := generateCacheKey companyName country
  if readFails then (store, none)
  else
    match store key with
    | none => (store, none)
    | some row =>
        if row.expiresAt < now then (store.deleteKey key, none)
        else (store, some { row.responseData with cached := true })

/-! ### Aggregator (`app/services/ratings_service.py`, class `RatingsService`)

Entity resolution and scraping are awaited external tasks; their settled
outcomes enter as functions `RatingAgency → Except String _` (`.error`
models a raised exception). -/

/-- Stable-descending insertion of one entity (earlier element goes in
front of equal confidences). -/
def insertDesc (x : ResolvedEntity) :
    List ResolvedEntity → List ResolvedEntity
  | [] => [x]
  | y :: ys =>
      if y.confidence ≤ x.confidence then x :: y :: ys
      else y :: insertDesc x ys

/-- Stable sort by confidence, descending.  Python's `list.sort` is
stable, and a stable sort under a total preorder is unique, so this
insertion sort computes exactly
`valid_entities.sort(key=lambda e: e.confidence, reverse=True)`. -/
def sortDesc : List ResolvedEntity → List ResolvedEntity
  | [] => []
  | x :: xs => insertDesc x (sortDesc xs)

/-- `RatingsService._select_best_entity` applied to the already-filtered
list of non-`None` entities (in dict order): sort by confidence
descending, take the first; `None` on the empty list. -/
def selectBestEntity (valid : List ResolvedEntity) : Option ResolvedEntity :=
  (sortDesc valid).head?

/-- Modelled from the spec's words (for claim C9): the candidate of
maximum confidence, the earliest in source-declaration order on ties;
`none` when nothing resolved. -/
def firstMaxByConfidence : List ResolvedEntity → Option ResolvedEntity
  | [] => none
  | x :: xs =>
      match firstMaxByConfidence xs with
      | none => some x
      | some y => if x.confidence < y.confidence then some y else some x

/-- `", ".join`. -/
def joinComma (l : List String) : String := String.intercalate ", " l

/-- Python truthiness of `rating.raw` (`None` and `""` are falsy). -/
def rawFalsy (r : AgencyRating) : Bool :=
  match r.raw with
  | none => true
  | some s => s.isEmpty

/-- `RatingsService._generate_notes`.  `keyOrder` is the insertion order
of the `response.ratings` dict (unresolved agencies first, then scraped
ones, each in declaration order), fixed by `get_ratings`.  Confidence is
rendered with `toString` where Python formats the float. -/
def generateNotes (keyOrder : List RatingAgency)
    (response : RatingsResponse) : List String :=
  let items := keyOrder.filterMap fun a =>
    (response.ratings a).map fun r => (a, r)
  let blockedAgencies := (items.filter fun p => p.2.blocked).map
    fun p => p.1.value
  let notes₁ :=
    if blockedAgencies.isEmpty then []
    else ["Scraping blocked for: " ++ joinComma blockedAgencies ++
      ". This may be due to rate limits or access restrictions."]
  let notes₂ :=
    match response.resolved with
    | some e =>
        if e.ambiguousCandidates.isEmpty then []
        else ["Found " ++ toString e.ambiguousCandidates.length ++
          " alternative matches. Confidence in selected entity: " ++
          toString e.confidence ++ "."]
    | none => []
  let missing := (items.filter fun p => rawFalsy p.2 && !p.2.blocked).map
    fun p => p.1.value
  let notes₃ :=
    if missing.isEmpty then []
    else ["No rating found for: " ++ joinComma missing ++ "."]
  let notes₄ :=
    match response.resolved with
    | some e =>
        if e.confidence < (7 : ℚ) / 10 then
          ["Low confidence match (" ++ toString e.confidence ++
            "). Please verify the entity is correct."]
        else []
    | none => []
  notes₁ ++ notes₂ ++ notes₃ ++ notes₄

/-- Truthiness of `entity and entity.canonical_url` for the outcome of a
resolution task. -/
def hasLocator (e : Option ResolvedEntity) : Bool :=
  match e with
  | some e => e.canonicalUrl.isSome
  | none => false

/-- The per-agency entry of the `resolved_entities` dict: the awaited
resolution task's value, or `None` when the task raised. -/
def resolutionOf
    (resolve : RatingAgency → Except String (Option ResolvedEntity))
    (a : RatingAgency) : Option ResolvedEntity :=
  match resolve a with
  | .ok e => e
  | .error _ => none

/-- `RatingsService.get_ratings`.  `cachedResult` is what
`self.cache.get` returned; on a hit it is returned unchanged.  Otherwise
every agency is resolved (`.error` = task raised → recorded as `None`),
the best entity is selected, every agency with a locator is scraped
(an exception becomes a `"Scraping error: ..."` entry), agencies without
a locator get a `"Could not resolve entity for ..."` entry, and notes are
generated.  `now` is the response-construction clock reading. -/
def getRatings (companyName : String) (cachedResult : Option RatingsResponse)
    (resolve : RatingAgency → Except String (Option ResolvedEntity))
    (scrape : RatingAgency → Except String AgencyRating) (now : Nat) :
    RatingsResponse :=
  match cachedResult with
  | some r => r
  | none =>
      let resolvedEntities : RatingAgency → Option ResolvedEntity :=
        resolutionOf resolve
      let best := selectBestEntity (agencyOrder.filterMap resolvedEntities)
      let ratings : RatingAgency → Option AgencyRating := fun a =>
        if hasLocator (resolvedEntities a) then
          some (match scrape a with
            | .ok r => r
            | .error msg => .ofError ("Scraping error: " ++ msg))
        else some (.ofError ("Could not resolve entity for " ++ a.value))
      let keyOrder :=
        (agencyOrder.filter fun a => !hasLocator (resolvedEntities a)) ++
        (agencyOrder.filter fun a => hasLocator (resolvedEntities a))
      let resp : RatingsResponse :=
        { query := companyName
          resolved := best
          ratings := ratings
          notes := []
          timestamp := now
          cached := false }
      { resp with notes := generateNotes keyOrder resp }

/-- `get_ratings` with ghost per-source task durations.  The code awaits
every resolution and scrape task unconditionally (`await task`, no
`asyncio.wait_for` or other deadline), so the durations cannot influence
the result; they are listed only so deadline claims can be stated. -/
def getRatingsTimed (companyName : String)
    (cachedResult : Option RatingsResponse)
    (resolve : RatingAgency → Except String (Option ResolvedEntity))
    (scrape : RatingAgency → Except String AgencyRating) (now : Nat)
    (_resolveDuration _scrapeDuration : RatingAgency → Nat) :
    RatingsResponse :=
  getRatings companyName cachedResult resolve scrape now

/-! ### Rating normalization (`app/utils/rating_normalizer.py`) -/

/-- `str.upper()` on one character (ASCII rule). -/
def pyUpperChar (c : Char) : Char :=
  if 'a' ≤ c ∧ c ≤ 'z' then Char.ofNat (c.toNat - 32) else c

/-- `str.upper()`. -/
def pyUpper (s : String) : String := ⟨s.data.map pyUpperChar⟩

/-- `FITCH_SP_SCALE`. -/
def fitchSpScale : List (String × Nat) :=
  [("AAA", 1), ("AA+", 2), ("AA", 3), ("AA-", 4), ("A+", 5), ("A", 6),
   ("A-", 7), ("BBB+", 8), ("BBB", 9), ("BBB-", 10), ("BB+", 11),
   ("BB", 12), ("BB-", 13), ("B+", 14), ("B", 15), ("B-", 16),
   ("CCC+", 17), ("CCC", 17), ("CCC-", 17), ("CC", 18), ("C", 19),
   ("D", 21), ("SD", 21), ("RD", 21)]

/-- `NOT_RATED_VALUES`. -/
def notRatedValues : List String :=
  ["NR", "WR", "WD", "N/A", "NA", "WITHDRAWN", "NOT RATED"]

/-- `get_rating_bucket`. -/
def getRatingBucket (score : Nat) : RatingBucket :=
  if score ≤ 10 then .investmentGrade
  else if score ≤ 19 then .speculative
  else if score = 21 then .default
  else .notRated

/-- `rating.split("(")[0]`: the part before the first `(`. -/
def beforeParen (s : String) : String := ⟨s.data.takeWhile (· ≠ '(')⟩

/-- `normalize_fitch_sp_rating`. -/
def normalizeFitchSpRating (rawRating : String) : Option NormalizedRating :=
  if rawRating.isEmpty then none
  else
    let rating := pyUpper (pyStrip rawRating)
    if rating ∈ notRatedValues then none
    else
      let rating := pyStrip (beforeParen rating)
      match fitchSpScale.lookup rating with
      | none => none
      | some score =>
          some { scale := .fitchSp, score := score,
                 bucket := getRatingBucket score }

/-! ### Fitch scraper (`app/scrapers/fitch.py` with `app/scrapers/base.py`)

`FitchScraper.scrape` checks the settings gate, asks the rate limiter,
then calls `_fetch_page` (up to three attempts under the `tenacity`
retry decorator, which reraises the last error).  Per attempt, the
Playwright navigation outcome is external: either an exception, a `None`
response, or a response with an HTTP status and HTML.  A 403/429 records
a rate-limiter failure and raises; other `>= 400` statuses raise; success
records a rate-limiter success and returns the HTML.  An exception
escaping `_fetch_page` is caught by `scrape`, which records a failure and
returns an error entry.  The HTML-extraction heuristics and the
hardcoded-ratings lookup are outside the embedded core; their outcomes
enter as `FitchPageData`. -/

/-- A `record_success` / `record_failure` call made on the rate limiter
(ghost log entry). -/
inductive RecordEvent where
  | success (domain : String)
  | failure (domain : String) (now : Nat)
deriving DecidableEq, Repr

/-- Rate limiter state together with the ghost log of record calls. -/
structure ScrapeCtx where
  rl : RateLimiter
  log : List RecordEvent

/-- `self.rate_limiter.record_success(self.domain)`. -/
def ScrapeCtx.recSuccess (c : ScrapeCtx) : ScrapeCtx :=
  { rl := c.rl.recordSuccess
    log := c.log ++ [.success c.rl.circuit.domain] }

/-- `self.rate_limiter.record_failure(self.domain)`. -/
def ScrapeCtx.recFailure (c : ScrapeCtx) (now : Nat) : ScrapeCtx :=
  { rl := c.rl.recordFailure now
    log := c.log ++ [.failure c.rl.circuit.domain now] }

/-- Outcome of one Playwright `page.goto` attempt (external). -/
inductive AttemptOutcome where
  | response (status : Nat) (html : String)
  | noResponse
  | exn (msg : String)
deriving DecidableEq, Repr

/-- One attempt of `BaseScraper._fetch_page`'s body. -/
def fetchAttempt (c : ScrapeCtx) (now : Nat) (url : String) :
    AttemptOutcome → ScrapeCtx × Except String String
  | .exn m => (c, .error m)
  | .noResponse => (c, .error ("No response received for " ++ url))
  | .response status html =>
      if status = 403 ∨ status = 429 then
        (c.recFailure now, .error ("Blocked with status " ++ toString status))
      else if 400 ≤ status then
        (c, .error ("HTTP " ++ toString status ++ " for " ++ url))
      else
        (c.recSuccess, .ok html)

/-- `BaseScraper._fetch_page` under
`@retry(stop=stop_after_attempt(3), ..., reraise=True)`: up to three
attempts, the last error reraised. -/
def fetchPage (c : ScrapeCtx) (now : Nat) (url : String)
    (a₁ a₂ a₃ : AttemptOutcome) : ScrapeCtx × Except String String :=
  match fetchAttempt c now url a₁ with
  | (c₁, .ok h) => (c₁, .ok h)
  | (c₁, .error _) =>
      match fetchAttempt c₁ now url a₂ with
      | (c₂, .ok h) => (c₂, .ok h)
      | (c₂, .error _) => fetchAttempt c₂ now url a₃

/-- Outcomes of the excluded per-page collaborators: the extraction
heuristics (`_extract_rating`, `_extract_outlook_from_page`,
`_extract_date_from_page`) and the `get_hardcoded_rating` fallback
lookup. -/
structure FitchPageData where
  rating : Option String
  outlook : Option Outlook
  lastUpdated : Option Nat
  hardcoded : Option AgencyRating
deriving DecidableEq, Repr

/-- Python truthiness of the extracted rating (`if not rating`). -/
def ratingFalsy (r : Option String) : Bool :=
  match r with
  | none => true
  | some s => s.isEmpty

/-- `FitchScraper.scrape`.  Returns the updated context, the
`AgencyRating` result, and a ghost flag saying whether the fetcher
(`_fetch_page`) was invoked. -/
def fitchScrape (isAllowed : Bool) (c : ScrapeCtx) (now : Nat)
    (url : String) (a₁ a₂ a₃ : AttemptOutcome) (pd : FitchPageData) :
    ScrapeCtx × AgencyRating × Bool :=
  if !isAllowed then
    (c, { blocked := true,
          error := some "Fitch scraping disabled in settings" }, false)
  else
    let acq := c.rl.acquire now
    let c := { c with rl := acq.1 }
    if !acq.2.1 then
      (c, { blocked := true, error := acq.2.2 }, false)
    else
      match fetchPage c now url a₁ a₂ a₃ with
      | (c, .error m) =>
          (c.recFailure now,
           { sourceUrl := some url, blocked := false,
             error := some ("Scraping failed: " ++ m) }, true)
      | (c, .ok _) =>
          if ratingFalsy pd.rating then
            match pd.hardcoded with
            | some hr => (c, hr, true)
            | none =>
                (c, { sourceUrl := some url,
                      error := some "Could not extract rating from page" },
                 true)
          else
            let r := pd.rating.getD ""
            (c, { raw := some r
                  outlook := pd.outlook
                  normalized := normalizeFitchSpRating r
                  lastUpdated := pd.lastUpdated
                  sourceUrl := some url
                  blocked := false }, true)

/-! ## Theorems -/

/-! ### C3 — cache fingerprint normalization -/

set_option maxRecDepth 10000 in
/-- C3 (counterexample): the fingerprint is NOT invariant under a case
change of `country`.  `_generate_cache_key` lower-cases and strips only
`company_name`; the country string enters the hashed key verbatim, so
`fingerprint("Acme Inc", "US") ≠ fingerprint("  acme inc ", "us")`. -/
theorem cacheKey_country_case_counterexample :
    generateCacheKey "Acme Inc" (some "US") ≠
      generateCacheKey "  acme inc " (some "us") := by
  decide

/-- C3 (amended): the fingerprint is invariant under case and
surrounding-whitespace changes of `companyName` only — any two company
names with the same lower-cased, stripped form hash identically, with
the country held fixed. -/
theorem cacheKey_company_normalization (c₁ c₂ : String)
    (country : Option String)
    (h : pyStrip (pyLower c₁) = pyStrip (pyLower c₂)) :
    generateCacheKey c₁ country = generateCacheKey c₂ country := by
  unfold generateCacheKey
  rw [h]

set_option maxRecDepth 10000 in
/-- C3 witness: `"Acme Inc"` and `"  acme inc "` normalize identically,
so their fingerprints agree when the country is unchanged. -/
theorem cacheKey_company_normalization_witness :
    pyStrip (pyLower "Acme Inc") = pyStrip (pyLower "  acme inc ") ∧
    generateCacheKey "Acme Inc" (some "US") =
      generateCacheKey "  acme inc " (some "US") :=
  ⟨by decide, cacheKey_company_normalization "Acme Inc" "  acme inc "
    (some "US") (by decide)⟩

/-! ### C6 — cache round trip -/

/-- A successful `set` leaves exactly the upserted row under the query's
fingerprint. -/
theorem cacheSet_store_at_key (store : CacheStore) (ttlDays : Nat)
    (companyName : String) (country : Option String) (v : RatingsResponse)
    (now : Nat) :
    (cacheSet store ttlDays companyName country v now false).1
        (generateCacheKey companyName country) =
      some { companyName := companyName
             country := country
             responseData := { v with cached := false }
             createdAt := now
             expiresAt := now + ttlDays * 86400 } := by
  unfold cacheSet
  simp only []
  rw [if_neg (by decide : ¬ (false = true))]
  exact if_pos rfl

/-- A `get` that finds an unexpired row returns its payload with
`cached = true` and leaves the store unchanged. -/
theorem cacheGet_hit (store : CacheStore) (companyName : String)
    (country : Option String) (now : Nat) (row : CacheRow)
    (h : store (generateCacheKey companyName country) = some row)
    (hfresh : ¬ row.expiresAt < now) :
    cacheGet store companyName country now false =
      (store, some { row.responseData with cached := true }) := by
  unfold cacheGet
  rw [if_neg (by decide : ¬ (false = true))]
  rw [h]
  simp only [if_neg hfresh]

/-- C6: `set` immediately followed by `get` (with the row not yet
expired and the store healthy) returns the stored response with every
field unchanged except `cached`, which becomes `true`; the persisted
row's payload has `cached = false`. -/
theorem cache_set_get_roundtrip (store : CacheStore) (ttlDays : Nat)
    (companyName : String) (country : Option String)
    (v : RatingsResponse) (t₀ t₁ : Nat)
    (hfresh : ¬ (t₀ + ttlDays * 86400 < t₁)) :
    (cacheGet (cacheSet store ttlDays companyName country v t₀ false).1
        companyName country t₁ false).2 = some { v with cached := true } ∧
    ∃ row,
      (cacheSet store ttlDays companyName country v t₀ false).1
        (generateCacheKey companyName country) = some row ∧
      row.responseData.cached = false := by
  have hrow := cacheSet_store_at_key store ttlDays companyName country v t₀
  refine ⟨?_, ⟨_, hrow, rfl⟩⟩
  have hget := cacheGet_hit
    (cacheSet store ttlDays companyName country v t₀ false).1
    companyName country t₁ _ hrow hfresh
  rw [hget]

/-- C6 witness: a concrete round trip before expiry. -/
theorem cache_set_get_roundtrip_witness :
    ¬ ((0 : Nat) + 30 * 86400 < 5) ∧
    (cacheGet (cacheSet CacheStore.empty 30 "Acme" (some "US")
          { query := "Acme" } 0 false).1 "Acme" (some "US") 5 false).2 =
      some { query := "Acme", cached := true } :=
  ⟨by decide,
   (cache_set_get_roundtrip CacheStore.empty 30 "Acme" (some "US")
     { query := "Acme" } 0 5 (by decide)).1⟩

/-! ### C10 — `set` mutates its argument -/

/-- C10: `CacheService.set` assigns `response.cached = False` on the
caller's object before attempting the write, so the caller's response
comes back with `cached = false` and every other field untouched — also
when the storage write fails (`writeFails = true`), since the exception
is raised after the mutation and caught. -/
theorem cache_set_mutates_response (store : CacheStore) (ttlDays : Nat)
    (companyName : String) (country : Option String)
    (v : RatingsResponse) (now : Nat) (writeFails : Bool) :
    (cacheSet store ttlDays companyName country v now writeFails).2 =
      { v with cached := false } :=
  rfl

/-! ### C9 — best-entity selection -/

/-- Head of a stable-descending insertion. -/
theorem insertDesc_head (x : ResolvedEntity) (l : List ResolvedEntity) :
    (insertDesc x l).head? =
      some (match l.head? with
        | none => x
        | some y => if x.confidence < y.confidence then y else x) := by
  cases l with
  | nil => rfl
  | cons y ys =>
      simp only [insertDesc, List.head?]
      by_cases h : y.confidence ≤ x.confidence
      · rw [if_pos h, if_neg (not_lt.mpr h)]
      · rw [if_neg h, if_pos (not_le.mp h)]

/-- `_select_best_entity`'s sort-then-head equals the spec's
first-maximum-by-confidence selection. -/
theorem selectBest_eq_firstMax (l : List ResolvedEntity) :
    selectBestEntity l = firstMaxByConfidence l := by
  induction l with
  | nil => rfl
  | cons x xs ih =>
      show (insertDesc x (sortDesc xs)).head? = _
      rw [insertDesc_head]
      have hh : (sortDesc xs).head? = firstMaxByConfidence xs := ih
      rw [hh]
      cases h : firstMaxByConfidence xs with
      | none => simp only [firstMaxByConfidence, h]
      | some y =>
          simp only [firstMaxByConfidence, h]
          by_cases hc : x.confidence < y.confidence
          · rw [if_pos hc, if_pos hc]
          · rw [if_neg hc, if_neg hc]

/-- C9: the overall resolved entity picked by `get_ratings` is the
candidate of maximum confidence among the non-`None` per-source
candidates, the earliest in declaration order (FITCH, SP, MOODYS) on
ties (`firstMaxByConfidence` is the spec-side selection rule); when no
source resolved, it is `None`. -/
theorem best_entity_is_first_max (companyName : String)
    (resolve : RatingAgency → Except String (Option ResolvedEntity))
    (scrape : RatingAgency → Except String AgencyRating) (now : Nat) :
    (getRatings companyName none resolve scrape now).resolved =
      firstMaxByConfidence
        (agencyOrder.filterMap (resolutionOf resolve)) ∧
    ((∀ a, resolutionOf resolve a = none) →
      (getRatings companyName none resolve scrape now).resolved = none) := by
  constructor
  · show selectBestEntity _ = _
    exact selectBest_eq_firstMax _
  · intro h
    show selectBestEntity _ = _
    simp [agencyOrder, h]
    rfl

/-- C9 witness: when every resolution task yields no candidate, the
overall resolved entity is `none`. -/
theorem best_entity_is_first_max_witness :
    (∀ a, resolutionOf (fun _ => Except.ok none) a = none) ∧
    (getRatings "q" none (fun _ => Except.ok none)
        (fun _ => Except.ok {}) 0).resolved = none :=
  ⟨fun _ => rfl,
   (best_entity_is_first_max "q" (fun _ => Except.ok none)
     (fun _ => Except.ok {}) 0).2 fun _ => rfl⟩

/-! ### C1 — `bySource` fully populated -/

/-- A concrete resolved entity without a `canonical_url` (used in
witnesses). -/
def entityNoUrl : ResolvedEntity :=
  { name := "m", country := none, canonicalUrl := none, confidence := 1,
    ambiguousCandidates := [] }

/-- A concrete resolved entity with a `canonical_url` (used in
witnesses). -/
def entityWithUrl : ResolvedEntity :=
  { name := "x", country := none,
    canonicalUrl := some "https://e.example/x", confidence := 1,
    ambiguousCandidates := [] }

/-- A concrete resolution outcome map where every agency fails to yield
a locator: FITCH raises, SP resolves to `None`, MOODYS resolves without
a URL (used in witnesses). -/
def resolveAllFail : RatingAgency → Except String (Option ResolvedEntity)
  | .fitch => Except.error "boom"
  | .sp => Except.ok none
  | .moodys => Except.ok (some entityNoUrl)

/-- C1: on the non-cache path, `get_ratings` produces an entry for every
configured agency: an agency without a usable locator (resolution raised,
returned `None`, or returned an entity without `canonical_url`) gets the
explicit `"Could not resolve entity for ..."` failure entry, and an
agency whose scrape task raised gets a `"Scraping error: ..."` entry. -/
theorem bySource_fully_populated (companyName : String)
    (resolve : RatingAgency → Except String (Option ResolvedEntity))
    (scrape : RatingAgency → Except String AgencyRating) (now : Nat)
    (a : RatingAgency) :
    (∃ r, (getRatings companyName none resolve scrape now).ratings a =
      some r) ∧
    (hasLocator (resolutionOf resolve a) = false →
      (getRatings companyName none resolve scrape now).ratings a =
        some (.ofError ("Could not resolve entity for " ++ a.value))) ∧
    (∀ msg, hasLocator (resolutionOf resolve a) = true →
      scrape a = .error msg →
      (getRatings companyName none resolve scrape now).ratings a =
        some (.ofError ("Scraping error: " ++ msg))) := by
  refine ⟨?_, ?_, ?_⟩
  · show ∃ r, (if hasLocator (resolutionOf resolve a) then _ else _) = some r
    by_cases h : hasLocator (resolutionOf resolve a)
    · rw [if_pos h]
      exact ⟨_, rfl⟩
    · rw [if_neg h]
      exact ⟨_, rfl⟩
  · intro h
    show (if hasLocator (resolutionOf resolve a) then _ else _) = _
    rw [if_neg (by simp [h])]
  · intro msg h hm
    show (if hasLocator (resolutionOf resolve a) then _ else _) = _
    rw [if_pos (by simp [h]), hm]

/-- C1 witness: with every resolution failing (one raising, one returning
`None`, one resolving without a URL) and every scrape raising, each of the
three agencies still gets its explicit failure entry. -/
theorem bySource_fully_populated_witness :
    hasLocator (resolutionOf resolveAllFail RatingAgency.fitch) = false ∧
    (getRatings "Acme" none resolveAllFail
      (fun _ => Except.error "net down") 7).ratings RatingAgency.fitch =
      some (.ofError "Could not resolve entity for fitch") :=
  ⟨rfl,
   (bySource_fully_populated "Acme" resolveAllFail
     (fun _ => Except.error "net down") 7 RatingAgency.fitch).2.1 rfl⟩

/-! ### C8 — no per-source deadline in the aggregator -/

/-- Claim C8 as stated: some phase deadline exists such that any source
whose resolve or scrape task takes longer is recorded as a failure entry
(`Failed("timeout")` is in particular a failure entry, so refuting this
refutes the claim). -/
def claimC8 : Prop :=
  ∃ deadline : Nat,
    ∀ (companyName : String)
      (resolve : RatingAgency → Except String (Option ResolvedEntity))
      (scrape : RatingAgency → Except String AgencyRating) (now : Nat)
      (resolveDuration scrapeDuration : RatingAgency → Nat)
      (a : RatingAgency),
      (deadline < resolveDuration a ∨ deadline < scrapeDuration a) →
      ∃ e, (getRatingsTimed companyName none resolve scrape now
        resolveDuration scrapeDuration).ratings a = some e ∧
        e.error.isSome

/-- C8 (counterexample): `get_ratings` awaits every task with a bare
`await` — there is no `asyncio.wait_for` or other deadline — so its
result does not depend on task durations at all: for every proposed
deadline, a slower-than-deadline source that settles successfully is
recorded as a normal (non-failure) entry, never as `Failed("timeout")`. -/
theorem no_aggregator_deadline_counterexample : ¬ claimC8 := by
  rintro ⟨D, h⟩
  obtain ⟨e, he, herr⟩ := h "x" (fun _ => Except.ok (some entityWithUrl))
    (fun _ => Except.ok { raw := some "AA" }) 0
    (fun _ => D + 1) (fun _ => D + 1) .fitch (Or.inl (Nat.lt_succ_self D))
  have : e = { raw := some "AA" } := by
    have h2 : some e = some ({ raw := some "AA" } : AgencyRating) := by
      rw [← he]; rfl
    exact (Option.some.injEq _ _ ▸ h2).symm ▸ rfl
  rw [this] at herr
  simp [Option.isSome] at herr

/-- C8 (amended): the aggregator applies no deadline of its own; it
awaits each resolution and scrape task to settlement, so the result is
independent of how long the tasks take, and a scrape task that raises
(for example with a fetcher-internal timeout error) is recorded as a
`"Scraping error: ..."` entry without blocking the other sources'
entries. -/
theorem aggregator_awaits_every_task (companyName : String)
    (cachedResult : Option RatingsResponse)
    (resolve : RatingAgency → Except String (Option ResolvedEntity))
    (scrape : RatingAgency → Except String AgencyRating) (now : Nat)
    (rd₁ sd₁ rd₂ sd₂ : RatingAgency → Nat) :
    getRatingsTimed companyName cachedResult resolve scrape now rd₁ sd₁ =
      getRatingsTimed companyName cachedResult resolve scrape now rd₂ sd₂ ∧
    (∀ (a : RatingAgency) msg,
      hasLocator (resolutionOf resolve a) = true → scrape a = .error msg →
      (getRatingsTimed companyName none resolve scrape now rd₁
        sd₁).ratings a = some (.ofError ("Scraping error: " ++ msg)) ∧
      ∀ b, ∃ r, (getRatingsTimed companyName none resolve scrape now rd₁
        sd₁).ratings b = some r) := by
  refine ⟨rfl, ?_⟩
  intro a msg h hm
  constructor
  · show (if hasLocator (resolutionOf resolve a) then _ else _) = _
    rw [if_pos (by simp [h]), hm]
  · intro b
    show ∃ r, (if hasLocator (resolutionOf resolve b) then _ else _) =
      some r
    by_cases hb : hasLocator (resolutionOf resolve b)
    · rw [if_pos hb]
      exact ⟨_, rfl⟩
    · rw [if_neg hb]
      exact ⟨_, rfl⟩

/-- C8 witness: a concrete scrape exception (such as a fetcher-internal
timeout) becomes a `"Scraping error: ..."` entry, at any task duration. -/
theorem aggregator_awaits_every_task_witness :
    hasLocator (resolutionOf (fun _ => Except.ok (some entityWithUrl))
      RatingAgency.sp) = true ∧
    (getRatingsTimed "x" none (fun _ => Except.ok (some entityWithUrl))
      (fun _ => Except.error "Timeout 30000ms exceeded") 0
      (fun _ => 10 ^ 9) (fun _ => 10 ^ 9)).ratings RatingAgency.sp =
      some (.ofError "Scraping error: Timeout 30000ms exceeded") :=
  ⟨rfl,
   ((aggregator_awaits_every_task "x" none
     (fun _ => Except.ok (some entityWithUrl))
     (fun _ => Except.error "Timeout 30000ms exceeded") 0
     (fun _ => 10 ^ 9) (fun _ => 10 ^ 9) (fun _ => 0)
     (fun _ => 0)).2 RatingAgency.sp "Timeout 30000ms exceeded" rfl
     rfl).1⟩

/-! ### C2 — token-bucket rate bound -/

/-- Whether an `acquire` call at `now` takes the refill branch (the
breaker lets the call through and the window has elapsed); recomputed
from the state exactly as `acquire` does. -/
def didRefill (rl : RateLimiter) (now : Nat) : Bool :=
  (rl.circuit.canRequest now).2.1 &&
    decide (rl.windowSeconds ≤ now - rl.lastRefill)

/-- Run of `acquire` calls with a ghost counter of allowed acquisitions
since the most recent refill (reset whenever the call refills). -/
def runAcquiresCounted : RateLimiter × Nat → List Nat → RateLimiter × Nat
  | s, [] => s
  | (rl, c), t :: ts =>
      let r := rl.acquire t
      let c' := (if didRefill rl t then 0 else c) +
        (if r.2.1 then 1 else 0)
      runAcquiresCounted (r.1, c') ts

/-- One `acquire` step preserves `count + tokens = requestsPerWindow`
(and the capacity field). -/
theorem counted_step_invariant (rl : RateLimiter) (c t : Nat)
    (h : c + rl.tokens = rl.requestsPerWindow) :
    ((if didRefill rl t then 0 else c) +
        (if (rl.acquire t).2.1 then 1 else 0)) + (rl.acquire t).1.tokens =
      (rl.acquire t).1.requestsPerWindow ∧
    (rl.acquire t).1.requestsPerWindow = rl.requestsPerWindow := by
  unfold RateLimiter.acquire didRefill
  cases hc : (rl.circuit.canRequest t).2.1 with
  | false => simpa [hc] using h
  | true =>
      by_cases hw : rl.windowSeconds ≤ t - rl.lastRefill
      · by_cases hz : rl.requestsPerWindow = 0
        · simp [hc, hw, hz]
        · simp [hc, hw, hz]
          omega
      · by_cases hz : rl.tokens = 0
        · simp [hc, hw, hz]
          omega
        · simp [hc, hw, hz]
          omega

/-- The ghost counter plus the remaining tokens always equals the
configured capacity. -/
theorem runAcquiresCounted_invariant (ts : List Nat) (rl : RateLimiter)
    (c : Nat) (h : c + rl.tokens = rl.requestsPerWindow) :
    (runAcquiresCounted (rl, c) ts).2 +
        (runAcquiresCounted (rl, c) ts).1.tokens =
      (runAcquiresCounted (rl, c) ts).1.requestsPerWindow := by
  induction ts generalizing rl c with
  | nil => simpa [runAcquiresCounted] using h
  | cons t ts ih =>
      have step := counted_step_invariant rl c t h
      simpa [runAcquiresCounted] using ih _ _ (step.2 ▸ step.1)

/-- C2 (amended): between consecutive refills the limiter allows at most
`requestsPerWindow` acquisitions — after any sequence of `acquire` calls
from a fresh per-origin state, the count of allowed calls since the most
recent refill never exceeds the capacity.  (The window is a fixed refill
window, not a rolling one: a rolling interval can see up to twice the
capacity, as the counterexample shows.) -/
theorem fixed_window_allowance_bound (domain : String)
    (cap win th co t0 : Nat) (ts : List Nat) :
    (runAcquiresCounted (RateLimiter.init domain cap win th co t0, 0)
      ts).2 ≤ cap := by
  have hinv := runAcquiresCounted_invariant ts
    (RateLimiter.init domain cap win th co t0) 0 (by simp [RateLimiter.init])
  have hcap : ∀ ts s, (runAcquiresCounted s ts).1.requestsPerWindow =
      s.1.requestsPerWindow := by
    intro ts
    induction ts with
    | nil => intro s; rfl
    | cons t ts ih =>
        intro s
        have hstep : ((s.1.acquire t).1).requestsPerWindow =
            s.1.requestsPerWindow := by
          unfold RateLimiter.acquire
          cases hc : (s.1.circuit.canRequest t).2.1 with
          | false => simp [hc]
          | true =>
              by_cases hw : s.1.windowSeconds ≤ t - s.1.lastRefill <;>
                simp [hc, hw] <;> first | rfl | (split <;> rfl)
        calc (runAcquiresCounted s (t :: ts)).1.requestsPerWindow
            = ((s.1.acquire t).1).requestsPerWindow := by
              simpa [runAcquiresCounted] using ih _
          _ = s.1.requestsPerWindow := hstep
  have hfin : (runAcquiresCounted
      (RateLimiter.init domain cap win th co t0, 0) ts).1.requestsPerWindow
      = cap := hcap ts _
  omega

/-- The `(time, allowed)` outcome of each call in a run of `acquire`s. -/
def acquireOutcomes (rl : RateLimiter) (ts : List Nat) :
    List (Nat × Bool) :=
  ts.zip ((runAcquires rl ts).2.map Prod.fst)

/-- Number of allowed acquisitions timestamped in `[t, t + win)`. -/
def countAllowedIn (outs : List (Nat × Bool)) (t win : Nat) : Nat :=
  (outs.filter fun p => decide (t ≤ p.1) && decide (p.1 < t + win) &&
    p.2).length

/-- Monotone timestamps starting from `prev`. -/
def isTimeOrdered : Nat → List Nat → Bool
  | _, [] => true
  | prev, t :: ts => decide (prev ≤ t) && isTimeOrdered t ts

/-- Claim C2 as stated: for a fresh origin and any time-ordered sequence
of `Acquire` calls (the circuit stays closed: no failures are recorded),
once the tokens are exhausted — after some prefix the bucket holds zero
tokens — no rolling interval of `windowSeconds` contains more than
`requestsPerWindow` allowed acquisitions among the calls issued from the
exhaustion point on. -/
def claimC2 : Prop :=
  ∀ (domain : String) (cap win th co t0 : Nat) (ts : List Nat),
    isTimeOrdered t0 ts = true →
    ∀ i, (runAcquires (RateLimiter.init domain cap win th co t0)
      (ts.take i)).1.tokens = 0 →
    ∀ t, countAllowedIn
      ((acquireOutcomes (RateLimiter.init domain cap win th co t0)
        ts).drop i) t win ≤ cap

/-- C2 (counterexample): the code refills the whole bucket as soon as one
full window has elapsed since `last_refill`, so a rolling interval that
straddles a refill admits up to twice the capacity.  With
`requestsPerWindow = 2`, `windowSeconds = 60` and calls at
0, 1, 119, 178, 179, 180 the bucket is exhausted after the call at 1,
yet the interval `[178, 238)` contains three allowed calls
(178, 179, 180). -/
theorem rolling_window_counterexample : ¬ claimC2 := by
  intro h
  exact absurd
    (h "fitchratings.com" 2 60 3 30 0 [0, 1, 119, 178, 179, 180]
      (by decide) 2 (by decide) 178)
    (by decide)

/-! ### C4 — circuit-breaker state machine -/

/-- The calls the rate limiter makes into one origin's breaker:
`can_request` (from `acquire`), `record_success`, `record_failure`. -/
inductive CBEvent where
  | request (now : Nat)
  | success
  | failure (now : Nat)
deriving DecidableEq, Repr

/-- Apply one breaker call (discarding `can_request`'s answer). -/
def CircuitBreaker.stepEvent (cb : CircuitBreaker) : CBEvent → CircuitBreaker
  | .request now => (cb.canRequest now).1
  | .success => cb.recordSuccess
  | .failure now => cb.recordFailure now

/-- Breaker states reachable from a fresh instance. -/
def CBReachable (domain : String) (th co : Nat) (cb : CircuitBreaker) :
    Prop :=
  ∃ evs : List CBEvent,
    evs.foldl CircuitBreaker.stepEvent (CircuitBreaker.init domain th co) = cb

/-- Data invariant of reachable breaker states: an open breaker has a
failure timestamp, a non-closed breaker carries at least `threshold`
failures, a half-open breaker has seen at most one probe success, and the
configuration fields are fixed. -/
def cbInv (th co : Nat) (cb : CircuitBreaker) : Prop :=
  (cb.state = .opened → cb.lastFailureTime.isSome) ∧
  (cb.state ≠ .closed → th ≤ cb.failureCount) ∧
  (cb.state = .halfOpen → cb.successCount ≤ 1) ∧
  cb.threshold = th ∧ cb.timeoutSeconds = co

/-- One breaker call preserves the invariant. -/
theorem cbInv_step (th co : Nat) (cb : CircuitBreaker) (e : CBEvent)
    (h : cbInv th co cb) : cbInv th co (cb.stepEvent e) := by
  obtain ⟨h1, h2, h3, h4, h5⟩ := h
  cases e with
  | request now =>
      show cbInv th co (cb.canRequest now).1
      unfold CircuitBreaker.canRequest
      cases hs : cb.state with
      | closed => exact ⟨h1, h2, h3, h4, h5⟩
      | halfOpen => exact ⟨h1, h2, h3, h4, h5⟩
      | opened =>
          cases hf : cb.lastFailureTime with
          | none => exact ⟨h1, h2, h3, h4, h5⟩
          | some tf =>
              dsimp only
              by_cases hc : cb.timeoutSeconds < now - tf
              · rw [if_pos hc]
                refine ⟨by simp [CircuitBreaker.halfOpenCircuit], ?_, ?_,
                  h4, h5⟩
                · intro _
                  exact h2 (by simp [hs])
                · intro _
                  simp [CircuitBreaker.halfOpenCircuit]
              · rw [if_neg hc]
                exact ⟨h1, h2, h3, h4, h5⟩
  | success =>
      show cbInv th co cb.recordSuccess
      unfold CircuitBreaker.recordSuccess
      cases hs : cb.state with
      | closed =>
          exact ⟨by simp [hs], by simp [hs], by simp [hs], h4, h5⟩
      | opened => exact ⟨h1, h2, h3, h4, h5⟩
      | halfOpen =>
          by_cases hc : 2 ≤ cb.successCount + 1
          · rw [if_pos hc]
            exact ⟨by simp [CircuitBreaker.closeCircuit],
              by simp [CircuitBreaker.closeCircuit],
              by simp [CircuitBreaker.closeCircuit], h4, h5⟩
          · rw [if_neg hc]
            refine ⟨by simp [hs], ?_, ?_, h4, h5⟩
            · intro _
              exact h2 (by simp [hs])
            · intro _
              dsimp only
              omega
  | failure now =>
      show cbInv th co (cb.recordFailure now)
      unfold CircuitBreaker.recordFailure
      by_cases hc : cb.threshold ≤ cb.failureCount + 1
      · rw [if_pos hc]
        refine ⟨by simp [CircuitBreaker.openCircuit], ?_, ?_, h4, h5⟩
        · intro _
          simp only [CircuitBreaker.openCircuit]
          omega
        · intro hh
          simp [CircuitBreaker.openCircuit] at hh
      · rw [if_neg hc]
        refine ⟨?_, ?_, ?_, h4, h5⟩
        · intro hh
          simp
        · intro hh
          have := h2 hh
          omega
        · intro hh
          exact h3 hh

/-- Every reachable breaker state satisfies the invariant. -/
theorem cbInv_reachable (domain : String) (th co : Nat)
    (cb : CircuitBreaker) (h : CBReachable domain th co cb) :
    cbInv th co cb := by
  obtain ⟨evs, rfl⟩ := h
  have hinit : cbInv th co (CircuitBreaker.init domain th co) := by
    refine ⟨by simp [CircuitBreaker.init], ?_, by simp [CircuitBreaker.init],
      rfl, rfl⟩
    intro hh
    exact absurd rfl hh
  have hgen : ∀ (evs : List CBEvent) (cb : CircuitBreaker), cbInv th co cb →
      cbInv th co (evs.foldl CircuitBreaker.stepEvent cb) := by
    intro evs
    induction evs with
    | nil => exact fun cb h => h
    | cons e evs ih => exact fun cb h => ih _ (cbInv_step th co cb e h)
  exact hgen evs _ hinit

/-- C4: reachable breaker states follow exactly the claimed state
machine.  A fresh breaker is `Closed`.  From `Closed`, `record_failure`
moves to `Open` precisely when the failure count reaches the threshold,
and no other call leaves `Closed`.  From `Open`, the `can_request` check
made by `Acquire` moves to `HalfOpen` precisely when the cooldown has
elapsed since the recorded last failure, and no other call leaves
`Open`.  From `HalfOpen`, a single `record_failure` reopens the breaker;
`record_success` closes it exactly on the second success of the probe
phase (`success_count = 1` after the first), and `can_request` keeps it
`HalfOpen`. -/
theorem circuit_breaker_state_machine (domain : String) (th co : Nat)
    (cb : CircuitBreaker) (h : CBReachable domain th co cb) :
    (CircuitBreaker.init domain th co).state = .closed ∧
    (cb.state = .closed →
      (∀ now, ((cb.recordFailure now).state = .opened ↔
        th ≤ cb.failureCount + 1)) ∧
      cb.recordSuccess.state = .closed ∧
      (∀ now, (cb.canRequest now).1.state = .closed)) ∧
    (cb.state = .opened →
      (∀ now, ((cb.canRequest now).1.state = .halfOpen ↔
        ∃ tf, cb.lastFailureTime = some tf ∧ co < now - tf)) ∧
      cb.recordSuccess.state = .opened ∧
      (∀ now, (cb.recordFailure now).state = .opened)) ∧
    (cb.state = .halfOpen →
      (∀ now, (cb.recordFailure now).state = .opened) ∧
      (cb.recordSuccess.state = .closed ↔ cb.successCount = 1) ∧
      (∀ now, (cb.canRequest now).1.state = .halfOpen)) := by
  obtain ⟨h1, h2, h3, h4, h5⟩ := cbInv_reachable domain th co cb h
  refine ⟨rfl, ?_, ?_, ?_⟩
  · intro hs
    refine ⟨?_, ?_, ?_⟩
    · intro now
      unfold CircuitBreaker.recordFailure
      dsimp only
      rw [h4]
      by_cases hth : th ≤ cb.failureCount + 1
      · rw [if_pos hth]
        simpa [CircuitBreaker.openCircuit] using hth
      · rw [if_neg hth]
        simp [hs]
        omega
    · unfold CircuitBreaker.recordSuccess
      rw [hs]
    · intro now
      unfold CircuitBreaker.canRequest
      rw [hs]
      exact hs
  · intro hs
    refine ⟨?_, ?_, ?_⟩
    · intro now
      unfold CircuitBreaker.canRequest
      rw [hs]
      obtain ⟨tf, htf⟩ := Option.isSome_iff_exists.mp (h1 hs)
      rw [htf]
      dsimp only
      rw [h5]
      by_cases hc : co < now - tf
      · rw [if_pos hc]
        constructor
        · intro _
          exact ⟨tf, rfl, hc⟩
        · intro _
          rfl
      · rw [if_neg hc]
        constructor
        · intro hcontr
          rw [hs] at hcontr
          exact absurd hcontr (by simp)
        · rintro ⟨tf', htf', hc'⟩
          injection htf' with heq
          rw [← heq] at hc'
          exact absurd hc' hc
    · unfold CircuitBreaker.recordSuccess
      rw [hs]
      exact hs
    · intro now
      unfold CircuitBreaker.recordFailure
      dsimp only
      have hth : cb.threshold ≤ cb.failureCount + 1 := by
        have := h2 (by simp [hs])
        omega
      rw [if_pos hth]
      rfl
  · intro hs
    refine ⟨?_, ?_, ?_⟩
    · intro now
      unfold CircuitBreaker.recordFailure
      dsimp only
      have hth : cb.threshold ≤ cb.failureCount + 1 := by
        have := h2 (by simp [hs])
        omega
      rw [if_pos hth]
      rfl
    · unfold CircuitBreaker.recordSuccess
      rw [hs]
      dsimp only
      have hsc := h3 hs
      by_cases hc : 2 ≤ cb.successCount + 1
      · rw [if_pos hc]
        simp [CircuitBreaker.closeCircuit]
        omega
      · rw [if_neg hc]
        simp [hs]
        omega
    · intro now
      unfold CircuitBreaker.canRequest
      rw [hs]
      exact hs

/-- C4 witness: a fresh breaker (threshold 2) is reachable and `Closed`;
its first `record_failure` does not open it (`2 ≤ 0 + 1` is false). -/
theorem circuit_breaker_state_machine_witness :
    (CircuitBreaker.init "fitchratings.com" 2 30).state =
      CircuitState.closed ∧
    (((CircuitBreaker.init "fitchratings.com" 2 30).recordFailure 5).state
      = CircuitState.opened ↔
      2 ≤ (CircuitBreaker.init "fitchratings.com" 2 30).failureCount + 1) :=
  ⟨(circuit_breaker_state_machine "fitchratings.com" 2 30 _
      ⟨[], rfl⟩).1,
   ((circuit_breaker_state_machine "fitchratings.com" 2 30 _
      ⟨[], rfl⟩).2.1 rfl).1 5⟩

/-! ### C5 — denial while the circuit is open -/

/-- The reason string mentions "circuit" (case-insensitively: the
lower-cased character sequence contains `circuit` as a contiguous
substring). -/
def mentionsCircuit (s : String) : Prop :=
  ∃ pre post, s.data.map pyLowerChar = pre ++ "circuit".data ++ post

/-- The open-circuit denial reason always mentions "circuit". -/
theorem circuitOpenReason_mentions (d : String) :
    mentionsCircuit (circuitOpenReason d) := by
  refine ⟨[], " open for ".data ++ d.data.map pyLowerChar ++
    " (too many failures)".data, ?_⟩
  have h1 : "Circuit open for ".data.map pyLowerChar =
      "circuit".data ++ " open for ".data := by decide
  have h2 : (" (too many failures)".data : List Char).map pyLowerChar =
      " (too many failures)".data := by decide
  simp only [circuitOpenReason, String.data_append, List.map_append, h1,
    h2, List.append_assoc, List.nil_append]

/-- `can_request` never changes the breaker's configuration fields. -/
theorem canRequest_config (cb : CircuitBreaker) (now : Nat) :
    (cb.canRequest now).1.threshold = cb.threshold ∧
    (cb.canRequest now).1.timeoutSeconds = cb.timeoutSeconds ∧
    (cb.canRequest now).1.domain = cb.domain := by
  unfold CircuitBreaker.canRequest
  cases hs : cb.state with
  | closed => exact ⟨rfl, rfl, rfl⟩
  | halfOpen => exact ⟨rfl, rfl, rfl⟩
  | opened =>
      cases hf : cb.lastFailureTime with
      | none => exact ⟨rfl, rfl, rfl⟩
      | some tf =>
          dsimp only
          split
          · exact ⟨rfl, rfl, rfl⟩
          · exact ⟨rfl, rfl, rfl⟩

/-- `record_success` never changes the breaker's configuration fields. -/
theorem recordSuccess_config (cb : CircuitBreaker) :
    cb.recordSuccess.threshold = cb.threshold ∧
    cb.recordSuccess.timeoutSeconds = cb.timeoutSeconds ∧
    cb.recordSuccess.domain = cb.domain := by
  unfold CircuitBreaker.recordSuccess
  cases hs : cb.state with
  | closed => exact ⟨rfl, rfl, rfl⟩
  | opened => exact ⟨rfl, rfl, rfl⟩
  | halfOpen =>
      dsimp only
      split
      · exact ⟨rfl, rfl, rfl⟩
      · exact ⟨rfl, rfl, rfl⟩

/-- `record_failure` bumps the failure count by one, stamps the failure
time, and never changes the configuration fields. -/
theorem recordFailure_config (cb : CircuitBreaker) (t : Nat) :
    (cb.recordFailure t).failureCount = cb.failureCount + 1 ∧
    (cb.recordFailure t).threshold = cb.threshold ∧
    (cb.recordFailure t).timeoutSeconds = cb.timeoutSeconds ∧
    (cb.recordFailure t).domain = cb.domain ∧
    (cb.recordFailure t).lastFailureTime = some t := by
  unfold CircuitBreaker.recordFailure
  dsimp only
  split
  · exact ⟨rfl, rfl, rfl, rfl, rfl⟩
  · exact ⟨rfl, rfl, rfl, rfl, rfl⟩

/-- The breaker `acquire` leaves behind is exactly `can_request`'s. -/
theorem acquire_circuit (rl : RateLimiter) (now : Nat) :
    (rl.acquire now).1.circuit = (rl.circuit.canRequest now).1 := by
  unfold RateLimiter.acquire
  dsimp only
  split
  all_goals first
    | rfl
    | (split <;> first | rfl | (split <;> rfl))

/-- Reachable limiter states keep the configured breaker fields. -/
theorem rlReachable_config (domain : String) (cap win th co : Nat)
    (rl : RateLimiter) (h : RLReachable domain cap win th co rl) :
    rl.circuit.threshold = th ∧ rl.circuit.timeoutSeconds = co := by
  obtain ⟨t0, evs, rfl⟩ := h
  have hgen : ∀ (evs : List RLEvent) (rl : RateLimiter),
      (rl.runEvents evs).circuit.threshold = rl.circuit.threshold ∧
      (rl.runEvents evs).circuit.timeoutSeconds =
        rl.circuit.timeoutSeconds := by
    intro evs
    induction evs with
    | nil => exact fun rl => ⟨rfl, rfl⟩
    | cons e evs ih =>
        intro rl
        have hstep : (rl.step e).circuit.threshold = rl.circuit.threshold ∧
            (rl.step e).circuit.timeoutSeconds =
              rl.circuit.timeoutSeconds := by
          cases e with
          | acq now =>
              have hc := canRequest_config rl.circuit now
              have ha : ((rl.acquire now).1.circuit.threshold =
                  rl.circuit.threshold) ∧
                  (rl.acquire now).1.circuit.timeoutSeconds =
                    rl.circuit.timeoutSeconds := by
                rw [acquire_circuit]
                exact ⟨hc.1, hc.2.1⟩
              exact ha
          | success =>
              have hc := recordSuccess_config rl.circuit
              exact ⟨hc.1, hc.2.1⟩
          | failure now =>
              have hc := recordFailure_config rl.circuit now
              exact ⟨hc.2.1, hc.2.2.1⟩
        have hrest := ih (rl.step e)
        exact ⟨hrest.1.trans hstep.1, hrest.2.trans hstep.2⟩
  exact hgen evs _

/-- Splitting off the last `record_failure`. -/
theorem applyFailures_concat (rl : RateLimiter) (ts : List Nat) (t : Nat) :
    applyFailures rl (ts ++ [t]) =
      (applyFailures rl ts).recordFailure t := by
  unfold applyFailures
  rw [List.foldl_append]
  rfl

/-- `record_failure` calls only grow the failure count (by exactly one
each) and never touch the breaker configuration. -/
theorem applyFailures_count (ts : List Nat) (rl : RateLimiter) :
    (applyFailures rl ts).circuit.failureCount =
      rl.circuit.failureCount + ts.length ∧
    (applyFailures rl ts).circuit.threshold = rl.circuit.threshold ∧
    (applyFailures rl ts).circuit.timeoutSeconds =
      rl.circuit.timeoutSeconds ∧
    (applyFailures rl ts).circuit.domain = rl.circuit.domain := by
  induction ts generalizing rl with
  | nil => exact ⟨rfl, rfl, rfl, rfl⟩
  | cons t ts ih =>
      have hstep := recordFailure_config rl.circuit t
      have htail : applyFailures rl (t :: ts) =
          applyFailures (rl.recordFailure t) ts := rfl
      have hrest := ih (rl.recordFailure t)
      rw [htail]
      refine ⟨?_, hrest.2.1.trans hstep.2.1,
        hrest.2.2.1.trans hstep.2.2.1, hrest.2.2.2.trans hstep.2.2.2.1⟩
      rw [hrest.1]
      show (rl.circuit.recordFailure t).failureCount + ts.length = _
      rw [hstep.1]
      simp [List.length_cons]
      omega

/-- A final `record_failure` that pushes the count to the threshold opens
the breaker and stamps the failure time. -/
theorem applyFailures_opens (rl : RateLimiter) (ts : List Nat) (t : Nat)
    (hth : rl.circuit.threshold ≤
      rl.circuit.failureCount + ts.length + 1) :
    (applyFailures rl (ts ++ [t])).circuit.state = .opened ∧
    (applyFailures rl (ts ++ [t])).circuit.lastFailureTime = some t := by
  rw [applyFailures_concat]
  have hcount := applyFailures_count ts rl
  have hgoal : ((applyFailures rl ts).circuit.recordFailure t).state =
      .opened ∧
      ((applyFailures rl ts).circuit.recordFailure t).lastFailureTime =
        some t := by
    unfold CircuitBreaker.recordFailure
    dsimp only
    rw [if_pos (by rw [hcount.1, hcount.2.1]; omega)]
    exact ⟨rfl, rfl⟩
  exact hgoal

/-- An `acquire` against an open breaker still in cooldown is denied with
the open-circuit reason and leaves the limiter unchanged. -/
theorem acquire_denied_open (rl : RateLimiter) (now tf : Nat)
    (hs : rl.circuit.state = .opened)
    (hf : rl.circuit.lastFailureTime = some tf)
    (hel : ¬ rl.circuit.timeoutSeconds < now - tf) :
    rl.acquire now =
      (rl, false, some (circuitOpenReason rl.circuit.domain)) := by
  unfold RateLimiter.acquire CircuitBreaker.canRequest
  rw [hs, hf]
  dsimp only
  rw [if_neg hel]
  rfl

/-- C5: from any reachable per-origin state, `failureThreshold`
consecutive `record_failure` calls (no intervening success) open the
circuit, and every subsequent `acquire` made while less than
`cooldownSeconds` have elapsed since the last failure is denied with a
reason that mentions "circuit". -/
theorem circuit_denial_after_failures (domain : String)
    (cap win th co : Nat) (rl : RateLimiter)
    (hreach : RLReachable domain cap win th co rl)
    (ts : List Nat) (hlen : ts.length = th) (hne : ts ≠ [])
    (nows : List Nat)
    (hnows : ∀ n ∈ nows, n - ts.getLast hne < co) :
    ∀ out ∈ (runAcquires (applyFailures rl ts) nows).2,
      out.1 = false ∧ ∃ r, out.2 = some r ∧ mentionsCircuit r := by
  obtain ⟨hth, hco⟩ := rlReachable_config domain cap win th co rl hreach
  have hsplit : ts = ts.dropLast ++ [ts.getLast hne] :=
    (List.dropLast_append_getLast hne).symm
  have hlen' : ts.dropLast.length = th - 1 := by
    rw [List.length_dropLast, hlen]
  have hth1 : 1 ≤ th := by
    rw [← hlen]
    cases ts with
    | nil => exact absurd rfl hne
    | cons a l => simp
  have hopen := applyFailures_opens rl ts.dropLast (ts.getLast hne)
    (by rw [hth, hlen']; omega)
  rw [← hsplit] at hopen
  set st := applyFailures rl ts with hst
  have hcfg := applyFailures_count ts rl
  have hstco : st.circuit.timeoutSeconds = co := hcfg.2.2.1.trans hco
  have hdeny : ∀ n, n - ts.getLast hne < co →
      st.acquire n = (st, false,
        some (circuitOpenReason st.circuit.domain)) := by
    intro n hn
    exact acquire_denied_open st n (ts.getLast hne) hopen.1 hopen.2
      (by rw [hstco]; omega)
  clear hst
  induction nows with
  | nil => intro out hout; exact absurd hout (List.not_mem_nil out)
  | cons n nows ih =>
      intro out hout
      have hn := hnows n (List.mem_cons_self n nows)
      have hrun : runAcquires st (n :: nows) =
          ((runAcquires st nows).1,
            (false, some (circuitOpenReason st.circuit.domain)) ::
              (runAcquires st nows).2) := by
        show (let r := st.acquire n
              let rest := runAcquires r.1 nows
              (rest.1, r.2 :: rest.2)) = _
        rw [hdeny n hn]
      rw [hrun] at hout
      rcases List.mem_cons.mp hout with heq | hmem
      · subst heq
        exact ⟨rfl, circuitOpenReason st.circuit.domain, rfl,
          circuitOpenReason_mentions _⟩
      · exact ih (fun m hm => hnows m (List.mem_cons_of_mem n hm)) out hmem

/-- C5 witness: a fresh origin (threshold 3, cooldown 30), three
consecutive failures at times 1, 2, 3, then an `acquire` at time 10
(7 seconds after the last failure): denied with the circuit reason. -/
theorem circuit_denial_after_failures_witness :
    ∃ r, (((runAcquires (applyFailures
        (RateLimiter.init "fitchratings.com" 5 60 3 30 0) [1, 2, 3])
        [10]).2.headD (true, none)).2 = some r) ∧ mentionsCircuit r := by
  have h := circuit_denial_after_failures "fitchratings.com" 5 60 3 30 _
    ⟨0, [], rfl⟩ [1, 2, 3] rfl (by simp) [10] (by decide)
  obtain ⟨h1, r, hr, hmc⟩ := h ((runAcquires (applyFailures
      (RateLimiter.init "fitchratings.com" 5 60 3 30 0) [1, 2, 3])
      [10]).2.headD (true, none)) (by decide)
  exact ⟨r, hr, hmc⟩

/-! ### C7 — rate-limiter contract of the scraper -/

/-- A successful fetch attempt appends exactly one `record_success` for
the scraper's domain. -/
theorem fetchAttempt_ok_log (c : ScrapeCtx) (now : Nat) (url : String)
    (a : AttemptOutcome) (h : String)
    (hok : (fetchAttempt c now url a).2 = Except.ok h) :
    (fetchAttempt c now url a).1.log =
      c.log ++ [RecordEvent.success c.rl.circuit.domain] := by
  cases a with
  | exn m => exact absurd hok (by simp [fetchAttempt])
  | noResponse => exact absurd hok (by simp [fetchAttempt])
  | response status html =>
      unfold fetchAttempt at hok ⊢
      dsimp only at hok ⊢
      by_cases h1 : status = 403 ∨ status = 429
      · rw [if_pos h1] at hok
        exact absurd hok (by simp)
      · rw [if_neg h1] at hok ⊢
        by_cases h2 : 400 ≤ status
        · rw [if_pos h2] at hok
          exact absurd hok (by simp)
        · rw [if_neg h2]
          rfl

/-- A fetch attempt never changes the scraper's domain. -/
theorem fetchAttempt_domain (c : ScrapeCtx) (now : Nat) (url : String)
    (a : AttemptOutcome) :
    (fetchAttempt c now url a).1.rl.circuit.domain =
      c.rl.circuit.domain := by
  cases a with
  | exn m => rfl
  | noResponse => rfl
  | response status html =>
      unfold fetchAttempt
      dsimp only
      by_cases h1 : status = 403 ∨ status = 429
      · rw [if_pos h1]
        exact (recordFailure_config c.rl.circuit now).2.2.2.1
      · rw [if_neg h1]
        by_cases h2 : 400 ≤ status
        · rw [if_pos h2]
        · rw [if_neg h2]
          exact (recordSuccess_config c.rl.circuit).2.2

/-- A fetch attempt only appends to the record log. -/
theorem fetchAttempt_log_mono (c : ScrapeCtx) (now : Nat) (url : String)
    (a : AttemptOutcome) :
    ∃ e, (fetchAttempt c now url a).1.log = c.log ++ e := by
  cases a with
  | exn m => exact ⟨[], by simp [fetchAttempt]⟩
  | noResponse => exact ⟨[], by simp [fetchAttempt]⟩
  | response status html =>
      unfold fetchAttempt
      dsimp only
      by_cases h1 : status = 403 ∨ status = 429
      · rw [if_pos h1]
        exact ⟨[RecordEvent.failure c.rl.circuit.domain now], rfl⟩
      · rw [if_neg h1]
        by_cases h2 : 400 ≤ status
        · rw [if_pos h2]
          exact ⟨[], by simp⟩
        · rw [if_neg h2]
          exact ⟨[RecordEvent.success c.rl.circuit.domain], rfl⟩

/-- `_fetch_page` never changes the scraper's domain. -/
theorem fetchPage_domain (c : ScrapeCtx) (now : Nat) (url : String)
    (a₁ a₂ a₃ : AttemptOutcome) :
    (fetchPage c now url a₁ a₂ a₃).1.rl.circuit.domain =
      c.rl.circuit.domain := by
  unfold fetchPage
  cases hf1 : fetchAttempt c now url a₁ with
  | mk c₁ r₁ =>
      have hd1 : c₁.rl.circuit.domain = c.rl.circuit.domain := by
        rw [← fetchAttempt_domain c now url a₁, hf1]
      cases r₁ with
      | ok h => exact hd1
      | error m =>
          dsimp only
          cases hf2 : fetchAttempt c₁ now url a₂ with
          | mk c₂ r₂ =>
              have hd2 : c₂.rl.circuit.domain = c₁.rl.circuit.domain := by
                rw [← fetchAttempt_domain c₁ now url a₂, hf2]
              cases r₂ with
              | ok h => exact hd2.trans hd1
              | error m =>
                  dsimp only
                  have hd3 : (fetchAttempt c₂ now url
                      a₃).1.rl.circuit.domain = c₂.rl.circuit.domain :=
                    fetchAttempt_domain c₂ now url a₃
                  exact hd3.trans (hd2.trans hd1)

/-- When `_fetch_page` returns HTML, a `record_success` for the
scraper's domain is in the record log. -/
theorem fetchPage_ok_success_mem (c : ScrapeCtx) (now : Nat)
    (url : String) (a₁ a₂ a₃ : AttemptOutcome) (h : String)
    (hok : (fetchPage c now url a₁ a₂ a₃).2 = Except.ok h) :
    RecordEvent.success c.rl.circuit.domain ∈
      (fetchPage c now url a₁ a₂ a₃).1.log := by
  unfold fetchPage at hok ⊢
  cases hf1 : fetchAttempt c now url a₁ with
  | mk c₁ r₁ =>
      rw [hf1] at hok
      have hd1 : c₁.rl.circuit.domain = c.rl.circuit.domain := by
        rw [← fetchAttempt_domain c now url a₁, hf1]
      cases r₁ with
      | ok h₁ =>
          have hlog := fetchAttempt_ok_log c now url a₁ h₁ (by rw [hf1])
          rw [hf1] at hlog
          dsimp only at hlog ⊢
          rw [hlog]
          simp
      | error m₁ =>
          dsimp only at hok ⊢
          cases hf2 : fetchAttempt c₁ now url a₂ with
          | mk c₂ r₂ =>
              rw [hf2] at hok
              have hd2 : c₂.rl.circuit.domain = c₁.rl.circuit.domain := by
                rw [← fetchAttempt_domain c₁ now url a₂, hf2]
              cases r₂ with
              | ok h₂ =>
                  have hlog := fetchAttempt_ok_log c₁ now url a₂ h₂
                    (by rw [hf2])
                  rw [hf2] at hlog
                  dsimp only at hlog ⊢
                  rw [hlog, hd1]
                  simp
              | error m₂ =>
                  dsimp only at hok ⊢
                  cases hf3 : fetchAttempt c₂ now url a₃ with
                  | mk c₃ r₃ =>
                      rw [hf3] at hok
                      cases r₃ with
                      | ok h₃ =>
                          have hlog := fetchAttempt_ok_log c₂ now url a₃
                            h₃ (by rw [hf3])
                          rw [hf3] at hlog
                          dsimp only at hlog ⊢
                          rw [hlog, hd2, hd1]
                          simp
                      | error m₃ => exact absurd hok (by simp)

/-- C7: with the settings gate on, `FitchScraper.scrape` follows the
rate-limiter contract.  If `acquire` denies, the result is a
`blocked = True` entry carrying the denial reason, the fetcher is not
invoked and no `record_success`/`record_failure` is made.  If `acquire`
allows, the fetcher is invoked; when the fetch settles successfully a
`record_success` for the scraper's origin is made, and when the fetch
raises (after retries) a `record_failure` for that origin is made. -/
theorem scrape_rate_limit_contract (rl : RateLimiter) (now : Nat)
    (url : String) (a₁ a₂ a₃ : AttemptOutcome) (pd : FitchPageData) :
    ((rl.acquire now).2.1 = false →
      fitchScrape true ⟨rl, []⟩ now url a₁ a₂ a₃ pd =
        (⟨(rl.acquire now).1, []⟩,
         { blocked := true, error := (rl.acquire now).2.2 }, false)) ∧
    ((rl.acquire now).2.1 = true →
      (fitchScrape true ⟨rl, []⟩ now url a₁ a₂ a₃ pd).2.2 = true ∧
      (∀ h,
        (fetchPage ⟨(rl.acquire now).1, []⟩ now url a₁ a₂ a₃).2 =
          Except.ok h →
        RecordEvent.success rl.circuit.domain ∈
          (fitchScrape true ⟨rl, []⟩ now url a₁ a₂ a₃ pd).1.log) ∧
      (∀ m,
        (fetchPage ⟨rl.acquire now |>.1, []⟩ now url a₁ a₂ a₃).2 =
          Except.error m →
        RecordEvent.failure rl.circuit.domain now ∈
          (fitchScrape true ⟨rl, []⟩ now url a₁ a₂ a₃ pd).1.log)) := by
  have hdom : ((rl.acquire now).1).circuit.domain = rl.circuit.domain := by
    rw [acquire_circuit]
    exact (canRequest_config rl.circuit now).2.2
  constructor
  · intro hden
    unfold fitchScrape
    simp only [Bool.not_true, Bool.false_eq_true, if_false, hden,
      Bool.not_false, if_true]
  · intro hall
    unfold fitchScrape
    simp only [Bool.not_true, Bool.false_eq_true, if_false, hall]
    cases hfp : fetchPage ⟨(rl.acquire now).1, []⟩ now url a₁ a₂ a₃ with
    | mk cF rF =>
        have hdF : cF.rl.circuit.domain = rl.circuit.domain := by
          have hh := fetchPage_domain ⟨(rl.acquire now).1, []⟩ now url
            a₁ a₂ a₃
          rw [hfp] at hh
          exact hh.trans hdom
        cases rF with
        | error m =>
            refine ⟨rfl, ?_, ?_⟩
            · intro h hok
              exact absurd hok (by simp)
            · intro m' _
              show _ ∈ (cF.recFailure now).log
              unfold ScrapeCtx.recFailure
              rw [hdF]
              simp
        | ok html =>
            refine ⟨?_, ?_, ?_⟩
            · dsimp only
              split
              · split
                · rfl
                · rfl
              · rfl
            · intro h hok
              have hok' : (fetchPage ⟨(rl.acquire now).1, []⟩ now url
                  a₁ a₂ a₃).2 = Except.ok h := by
                rw [hfp]
                exact hok
              have hmem := fetchPage_ok_success_mem
                ⟨(rl.acquire now).1, []⟩ now url a₁ a₂ a₃ h hok'
              rw [hfp] at hmem
              dsimp only at hmem
              rw [show ((⟨(rl.acquire now).1, ([] : List RecordEvent)⟩ :
                ScrapeCtx)).rl.circuit.domain = rl.circuit.domain
                from hdom] at hmem
              dsimp only
              split
              · split
                · exact hmem
                · exact hmem
              · exact hmem
            · intro m hm
              exact absurd hm (by simp)

/-- Rate-limiter state with an open circuit for the Fitch origin
(threshold 1, cooldown 30, one failure at time 2), used in the C7
witness. -/
def rlOpenFitch : RateLimiter :=
  applyFailures (RateLimiter.init "fitchratings.com" 5 60 1 30 0) [2]

/-- C7 witness: against the open circuit, `scrape` at time 5 returns a
blocked entry with the denial reason, does not invoke the fetcher, and
records nothing. -/
theorem scrape_rate_limit_contract_witness :
    (rlOpenFitch.acquire 5).2.1 = false ∧
    fitchScrape true ⟨rlOpenFitch, []⟩ 5 "https://e.example/x"
        .noResponse .noResponse .noResponse
        ⟨none, none, none, none⟩ =
      (⟨(rlOpenFitch.acquire 5).1, []⟩,
       { blocked := true, error := (rlOpenFitch.acquire 5).2.2 }, false) :=
  ⟨by decide,
   (scrape_rate_limit_contract rlOpenFitch 5 "https://e.example/x"
     .noResponse .noResponse .noResponse
     ⟨none, none, none, none⟩).1 (by decide)⟩

end CreditRatings
